import Mathlib

/-!
Verification of the subsquid network-observer core: a shallow embedding of
`src/p2p.rs`, `src/metrics.rs` and `src/scheduler.rs`.

Modelling conventions:
* `PeerId` is modelled by `String` (the code only ever compares peer ids and
  turns them into label strings via `to_string()`, which is injective).
* Machine integers are `Nat` with explicit reduction modulo `2^32` / `2^64`
  where the Rust arithmetic can wrap (release-mode wrapping semantics), and
  prometheus gauges hold `Int` values obtained by the `as i64` cast.
* The cryptographic capability `verify(bytes, signature, identity) -> bool`
  (out of scope per the spec) is modelled as a boolean-valued field
  `signature_ok : String → Bool` on each signed message: for each asserted
  sender identity it tells whether the embedded signature verifies.
* The wire codec `Envelope::decode` is an external capability as well and is
  passed to the aggregator loop as a function parameter.
* Global prometheus metric families become an explicit `Store` record that is
  threaded through the handlers; a handler that bails with an error after
  having already reported some metrics returns the partially-updated store
  together with the error, exactly as the global-side-effect Rust code does.
-/

/-- Modulus of Rust `u32` arithmetic, `2^32`. -/
def U32 : Nat := 4294967296

/-- Modulus of Rust `u64` arithmetic, `2^64`. -/
def U64 : Nat := 18446744073709551616

/-- The Rust `as i64` cast applied to a `u64` value: bit-pattern reinterpretation,
values at or above `2^63` become negative. -/
def u64_as_i64 (n : Nat) : Int :=
  if n % U64 < 2 ^ 63 then ((n % U64 : Nat) : Int) else ((n % U64 : Nat) : Int) - (U64 : Int)

/-- One stored range of a worker: inclusive interval, `begin`/`end` are `u32`
fields of the wire message (Rust `Range { begin, end }`). Lean reserves both
keywords, hence the trailing underscores. -/
structure WorkerRange where
  begin_ : Nat
  end_ : Nat
deriving DecidableEq, Repr

/-- Ranges stored for one dataset (Rust `DatasetRanges`). -/
structure DatasetRanges where
  url : String
  ranges : List WorkerRange
deriving DecidableEq, Repr

/-- The per-range summand of `total_chunks` in `src/p2p.rs`:
`(r.end - r.begin + 1) as u64`, evaluated with wrapping `u32` arithmetic and
then widened to `u64`. -/
def rangeChunks (r : WorkerRange) : Nat :=
  ((r.end_ % U32 + U32 - r.begin_ % U32) % U32 + 1) % U32

/-- The inner `sum::<u64>()` over one dataset's ranges in `total_chunks`. -/
def datasetChunks (d : DatasetRanges) : Nat :=
  (d.ranges.map rangeChunks).foldl (fun a b => (a + b) % U64) 0

/-- `total_chunks` from `src/p2p.rs`: sum over all datasets of the per-range
chunk counts, all sums taken in `u64`. -/
def total_chunks (ranges : List DatasetRanges) : Nat :=
  (ranges.map datasetChunks).foldl (fun a b => (a + b) % U64) 0

/-- The mathematical chunk count the spec describes: Σ over all datasets of
Σ (end − begin + 1) over that dataset's ranges, in unbounded arithmetic.
This is the spec-side definition that `total_chunks` is compared against. -/
def specChunks (ranges : List DatasetRanges) : Nat :=
  (ranges.map (fun d => (d.ranges.map (fun r => r.end_ - r.begin_ + 1)).sum)).sum

/-- Heartbeat message (Rust `Ping` from `subsquid_messages`); only the fields
read by the observer are modelled. `stored_bytes` is the `u64` value returned
by the generated accessor `ping.stored_bytes()`. -/
structure Ping where
  worker_id : Option String
  version : Option String
  stored_bytes : Nat
  stored_ranges : List DatasetRanges
  signature_ok : String → Bool

/-- `LogsCollected` message: the `sequence_numbers` map (`HashMap<String, u64>`),
modelled as its list of key-value pairs in iteration order. -/
structure LogsCollected where
  sequence_numbers : List (String × Nat)

/-- Outcome of an executed query (Rust `query_executed::Result`). -/
inductive QueryResult where
  | ok
  | badRequest
  | serverError
deriving DecidableEq, Repr

/-- One record of a `QueryExecuted` batch. -/
structure QueryExecuted where
  worker_id : String
  client_id : Option String
  seq_no : Option Nat
  result : Option QueryResult
  signature_ok : String → Bool

/-- `QueryLogs` message: a batch of executed-query records. -/
structure QueryLogs where
  queries_executed : List QueryExecuted

/-- The payload union of the wire envelope (`envelope::Msg`). The envelope has
further variants the observer does not handle; they are collapsed into
`otherMsg`, which the `_` arm of `handle_msg` matches. -/
inductive Msg where
  | ping (p : Ping)
  | logsCollected (c : LogsCollected)
  | queryLogs (l : QueryLogs)
  | otherMsg

/-- Decoded wire envelope: an optional payload. -/
structure Envelope where
  msg : Option Msg

/-- A raw message delivered by the transport (`subsquid_network_transport::Message`):
optional sender identity plus content bytes. -/
structure RawMessage where
  peer_id : Option String
  content : List Nat

/-- Scheduler-reported worker status (`WorkerStatus` in `src/scheduler.rs`). -/
structure WorkerStatus where
  peer_id : String
  address : String
  last_ping : Nat
  version : Option String
  jailed : Bool
  jail_reason : Option String
  assigned_units : List String
  assigned_bytes : Nat
  stored_bytes : Nat
  num_missing_chunks : Nat
  last_assignment : Nat
  unreachable_since : Option Nat
  last_dial_time : Nat
  last_dial_ok : Bool

/-- The metrics state store: one field per metric family registered in
`src/metrics.rs`, keyed by its label set. Counters are `Nat`, gauges are the
`i64` values prometheus stores, hence `Int`. `INVALID_MESSAGES` uses
`WorkerLabels` with an optional peer id; the families written only with a
known peer are keyed by the peer-id string directly. -/
structure Store where
  invalid_messages : Option String → Nat
  ping : String × String → Nat
  stored_bytes : String → Int
  stored_chunks : String → Int
  last_collected_log : String → Int
  queries_ok : String → Nat
  queries_bad_request : String → Nat
  queries_server_error : String → Nat
  last_executed_query : String → Int
  queries_by_client : Option String → Nat
  num_missing_chunks : String → Int
  assigned_units : String → Int
  assigned_bytes : String → Int
  last_assignment : String → Int
  scheduler_stored_bytes : String → Int

/-- The store at process start: every family empty, i.e. every counter and
gauge reads as zero (prometheus get-or-create default). -/
def initialStore : Store where
  invalid_messages := fun _ => 0
  ping := fun _ => 0
  stored_bytes := fun _ => 0
  stored_chunks := fun _ => 0
  last_collected_log := fun _ => 0
  queries_ok := fun _ => 0
  queries_bad_request := fun _ => 0
  queries_server_error := fun _ => 0
  last_executed_query := fun _ => 0
  queries_by_client := fun _ => 0
  num_missing_chunks := fun _ => 0
  assigned_units := fun _ => 0
  assigned_bytes := fun _ => 0
  last_assignment := fun _ => 0
  scheduler_stored_bytes := fun _ => 0

/-- `metrics::invalid_message`: increment the invalid-message counter at the
given (possibly absent) peer-id label. -/
def invalid_message (peer_id : Option String) (s : Store) : Store :=
  { s with invalid_messages := fun l =>
      if l = peer_id then s.invalid_messages l + 1 else s.invalid_messages l }

/-- `metrics::report_ping`: increment the ping counter at `(peer_id, version)`
and set the stored-bytes and stored-chunks gauges for the peer. -/
def report_ping (peer_id version : String) (sb tc : Nat) (s : Store) : Store :=
  { s with
    ping := fun l => if l = (peer_id, version) then s.ping l + 1 else s.ping l
    stored_bytes := fun w => if w = peer_id then u64_as_i64 sb else s.stored_bytes w
    stored_chunks := fun w => if w = peer_id then u64_as_i64 tc else s.stored_chunks w }

/-- `metrics::report_logs_collected`: set the last-collected-log gauge for the
peer to the given sequence number. -/
def report_logs_collected (peer_id : String) (seq_no : Nat) (s : Store) : Store :=
  { s with last_collected_log := fun w =>
      if w = peer_id then u64_as_i64 seq_no else s.last_collected_log w }

/-- Modelled from the spec: `metrics::report_query_executed` is called from
`src/p2p.rs` but its definition is missing from `src/metrics.rs` in the
source tree. Per the spec's data model and metric registry (outcome ∈
{Ok, BadRequest, ServerError} counters, a last-executed-query sequence gauge,
and a per-client query counter), it increments the counter matching the
record's outcome, sets the last-executed-query gauge to the record's sequence
number, and increments the per-client counter. -/
def report_query_executed (peer_id : String) (result : QueryResult) (seq_no : Nat)
    (client_id : Option String) (s : Store) : Store :=
  let s1 :=
    match result with
    | QueryResult.ok =>
        { s with queries_ok := fun w =>
            if w = peer_id then s.queries_ok w + 1 else s.queries_ok w }
    | QueryResult.badRequest =>
        { s with queries_bad_request := fun w =>
            if w = peer_id then s.queries_bad_request w + 1 else s.queries_bad_request w }
    | QueryResult.serverError =>
        { s with queries_server_error := fun w =>
            if w = peer_id then s.queries_server_error w + 1 else s.queries_server_error w }
  { s1 with
    last_executed_query := fun w =>
      if w = peer_id then u64_as_i64 seq_no else s1.last_executed_query w
    queries_by_client := fun c =>
      if c = client_id then s1.queries_by_client c + 1 else s1.queries_by_client c }

/-- `metrics::report_scheduler_status`: set the five scheduler gauges for the
worker named in the status. -/
def report_scheduler_status (status : WorkerStatus) (s : Store) : Store :=
  { s with
    num_missing_chunks := fun w =>
      if w = status.peer_id then u64_as_i64 status.num_missing_chunks
      else s.num_missing_chunks w
    assigned_units := fun w =>
      if w = status.peer_id then u64_as_i64 status.assigned_units.length
      else s.assigned_units w
    assigned_bytes := fun w =>
      if w = status.peer_id then u64_as_i64 status.assigned_bytes
      else s.assigned_bytes w
    last_assignment := fun w =>
      if w = status.peer_id then u64_as_i64 status.last_assignment
      else s.last_assignment w
    scheduler_stored_bytes := fun w =>
      if w = status.peer_id then u64_as_i64 status.stored_bytes
      else s.scheduler_stored_bytes w }

/-- The errors `handle_msg` can bail with. -/
inductive MsgError where
  | wrongPingSignature
  | wrongPingWorkerId
  | pingWithoutVersion
  | wrongLogsOrigin
  | wrongQuerySignature
  | wrongQueryWorkerId
  | queryWithoutResult
  | queryWithoutSeqNo
deriving DecidableEq, Repr

/-- The `for` loop over `logs.queries_executed` in `handle_msg`: each record is
checked (signature, worker id, presence of result and seq_no) and reported;
the first failing record aborts the loop with an error, keeping the metric
updates already made for the earlier records. -/
def handleQueries (peer_id : String) (qs : List QueryExecuted) (s : Store) :
    Store × Option MsgError :=
  match qs with
  | [] => (s, none)
  | query :: rest =>
    if ¬ query.signature_ok peer_id then (s, some MsgError.wrongQuerySignature)
    else if query.worker_id ≠ peer_id then (s, some MsgError.wrongQueryWorkerId)
    else
      match query.result with
      | none => (s, some MsgError.queryWithoutResult)
      | some result =>
        match query.seq_no with
        | none => (s, some MsgError.queryWithoutSeqNo)
        | some seq_no =>
          handleQueries peer_id rest
            (report_query_executed peer_id result seq_no query.client_id s)

/-- The body of the `for` loop over `collected.sequence_numbers`: set the
last-collected-log gauge of each listed peer to its sequence number plus one
(`u64` addition). -/
def applyLogsCollected (c : LogsCollected) (s : Store) : Store :=
  c.sequence_numbers.foldl
    (fun st pr => report_logs_collected pr.1 ((pr.2 + 1) % U64) st) s

/-- `Observer::handle_msg` from `src/p2p.rs`. Returns the store as mutated by
the metric calls made before any bail, together with the error when the
handler bails. -/
def handle_msg (logs_collector_id peer_id : String) (message : Option Msg)
    (s : Store) : Store × Option MsgError :=
  match message with
  | some (Msg.ping ping) =>
    if ¬ ping.signature_ok peer_id then (s, some MsgError.wrongPingSignature)
    else if ping.worker_id ≠ some peer_id then (s, some MsgError.wrongPingWorkerId)
    else
      match ping.version with
      | none => (s, some MsgError.pingWithoutVersion)
      | some version =>
        (report_ping peer_id version ping.stored_bytes
          (total_chunks ping.stored_ranges) s, none)
  | some (Msg.logsCollected collected) =>
    if peer_id ≠ logs_collector_id then (s, some MsgError.wrongLogsOrigin)
    else (applyLogsCollected collected s, none)
  | some (Msg.queryLogs logs) => handleQueries peer_id logs.queries_executed s
  | _ => (s, none)

/-- Processing of one raw transport message by the closure inside
`Observer::run`: decode, require a sender id, dispatch to `handle_msg`; each
failure increments the invalid-message counter (unlabeled for decode failures
and missing senders, labeled with the sender for handler errors). -/
def processMsg (decode : List Nat → Except Unit Envelope)
    (logs_collector_id : String) (msg : RawMessage) (s : Store) : Store :=
  match decode msg.content with
  | Except.error _ => invalid_message none s
  | Except.ok envelope =>
    match msg.peer_id with
    | none => invalid_message none s
    | some peer_id =>
      match handle_msg logs_collector_id peer_id envelope.msg s with
      | (s', some _) => invalid_message (some peer_id) s'
      | (s', none) => s'

/-- `Observer::run`: drain the message stream, processing every message; the
loop itself never fails, so it is a total fold over the delivered messages. -/
def run (decode : List Nat → Except Unit Envelope) (logs_collector_id : String)
    (msgs : List RawMessage) (s : Store) : Store :=
  msgs.foldl (fun st m => processMsg decode logs_collector_id m st) s

/-- Failure modes of one scheduler-poller invocation. -/
inductive SchedError where
  | fetchError
  | parseError
deriving DecidableEq, Repr

/-- `request_pings_status` from `src/scheduler.rs`: HTTP GET then JSON parse,
each stage propagating its failure. The network fetch and the JSON codec are
external capabilities, passed in as the fetch outcome and the parse
function. -/
def request_pings_status (fetched : Except Unit (List Nat))
    (parse : List Nat → Except Unit (List WorkerStatus)) :
    Except SchedError (List WorkerStatus) :=
  match fetched with
  | Except.error _ => Except.error SchedError.fetchError
  | Except.ok body =>
    match parse body with
    | Except.error _ => Except.error SchedError.parseError
    | Except.ok statuses => Except.ok statuses

/-- `collect_scheduler_metrics` from `src/scheduler.rs`: fetch and parse the
whole snapshot, then report every worker status; on failure the store is left
untouched and the error is surfaced. -/
def collect_scheduler_metrics (fetched : Except Unit (List Nat))
    (parse : List Nat → Except Unit (List WorkerStatus)) (s : Store) :
    Store × Option SchedError :=
  match request_pings_status fetched parse with
  | Except.error e => (s, some e)
  | Except.ok pings_status =>
    (pings_status.foldl (fun st w => report_scheduler_status w st) s, none)

/-- A query record is valid when its signature verifies for the sender, its
worker id matches the sender, and result and seq_no are present. -/
def queryValid (peer_id : String) (q : QueryExecuted) : Bool :=
  q.signature_ok peer_id && q.worker_id == peer_id && q.result.isSome && q.seq_no.isSome

/-- The metric update one valid query record performs (no-op on the store for
a record missing result or seq_no; only applied to valid records in the
theorems below). -/
def applyQuery (peer_id : String) (q : QueryExecuted) (s : Store) : Store :=
  match q.result, q.seq_no with
  | some result, some seq_no => report_query_executed peer_id result seq_no q.client_id s
  | _, _ => s

/-- Concrete range list for the spec's `total_chunks` example. -/
def rsC5 : List DatasetRanges := [⟨"ds", [⟨0, 9⟩, ⟨20, 25⟩]⟩]

/-- A validly signed heartbeat matching the spec's ping scenario. -/
def pingC7 : Ping where
  worker_id := some "PeerP"
  version := some "1.2.3"
  stored_bytes := 1000
  stored_ranges := [⟨"ds", [⟨0, 99⟩]⟩]
  signature_ok := fun _ => true

/-- A heartbeat whose signature verifies and whose worker id matches the
sender, but whose version field is absent. -/
def pingNoVer : Ping where
  worker_id := some "PeerP"
  version := none
  stored_bytes := 0
  stored_ranges := []
  signature_ok := fun _ => true

/-- A valid query record from worker `p`. -/
def qGoodC1 : QueryExecuted where
  worker_id := "p"
  client_id := some "client"
  seq_no := some 5
  result := some QueryResult.ok
  signature_ok := fun _ => true

/-- A query record from worker `p` whose signature does not verify. -/
def qBadC1 : QueryExecuted where
  worker_id := "p"
  client_id := some "client"
  seq_no := some 6
  result := some QueryResult.ok
  signature_ok := fun _ => false

/-- A decode capability delivering a two-record query batch: content `[0]`
decodes to the batch with the invalid record first, any other content to the
batch with the valid record first. -/
def decC1 : List Nat → Except Unit Envelope := fun c =>
  if c = [0] then Except.ok ⟨some (Msg.queryLogs ⟨[qBadC1, qGoodC1]⟩)⟩
  else Except.ok ⟨some (Msg.queryLogs ⟨[qGoodC1, qBadC1]⟩)⟩

theorem foldl_wrap_add (l : List Nat) (a : Nat) (ha : a < U64) :
    l.foldl (fun x y => (x + y) % U64) a = (a + l.sum) % U64 := by
  induction l generalizing a with
  | nil => simp [Nat.mod_eq_of_lt ha]
  | cons b t ih =>
    simp only [List.foldl_cons, List.sum_cons]
    rw [ih ((a + b) % U64) (Nat.mod_lt _ (by decide))]
    rw [Nat.mod_add_mod, Nat.add_assoc]

theorem rangeChunks_of_wf (r : WorkerRange) (h1 : r.begin_ ≤ r.end_) (h2 : r.end_ < U32)
    (h3 : r.end_ - r.begin_ + 1 < U32) : rangeChunks r = r.end_ - r.begin_ + 1 := by
  simp only [rangeChunks, U32] at h2 h3 ⊢
  omega

theorem u64_as_i64_small (n : Nat) (h : n < 2 ^ 63) : u64_as_i64 n = (n : Int) := by
  unfold u64_as_i64
  rw [Nat.mod_eq_of_lt (lt_trans h (by decide)), if_pos h]

/-- C5: for every list of dataset range sets made of well-formed ranges
(`begin ≤ end`, `u32`-representable, no single range covering the full `u32`
span) whose mathematical total fits in `u64`, `total_chunks` equals the sum
over all datasets of Σ (end − begin + 1) over that dataset's ranges. -/
theorem c5_total_chunks_eq_spec (rs : List DatasetRanges)
    (hwf : ∀ d ∈ rs, ∀ r ∈ d.ranges,
      r.begin_ ≤ r.end_ ∧ r.end_ < U32 ∧ r.end_ - r.begin_ + 1 < U32)
    (htot : specChunks rs < U64) :
    total_chunks rs = specChunks rs := by
  have hinner : ∀ d ∈ rs,
      (d.ranges.map rangeChunks).sum
        = (d.ranges.map (fun r => r.end_ - r.begin_ + 1)).sum := by
    intro d hd
    congr 1
    refine List.map_congr_left ?_
    intro r hr
    obtain ⟨h1, h2, h3⟩ := hwf d hd r hr
    exact rangeChunks_of_wf r h1 h2 h3
  have hle : ∀ d ∈ rs,
      (d.ranges.map (fun r => r.end_ - r.begin_ + 1)).sum ≤ specChunks rs := by
    intro d hd
    unfold specChunks
    exact List.single_le_sum (fun x _ => Nat.zero_le x) _
      (List.mem_map_of_mem _ hd)
  have hdc : ∀ d ∈ rs,
      datasetChunks d = (d.ranges.map (fun r => r.end_ - r.begin_ + 1)).sum := by
    intro d hd
    unfold datasetChunks
    rw [foldl_wrap_add _ 0 (by decide), Nat.zero_add, hinner d hd,
      Nat.mod_eq_of_lt (lt_of_le_of_lt (hle d hd) htot)]
  unfold total_chunks
  rw [foldl_wrap_add _ 0 (by decide), Nat.zero_add, List.map_congr_left hdc]
  exact Nat.mod_eq_of_lt htot

/-- C5 witness: on the spec's example ranges `[0,9]` and `[20,25]` the
hypotheses hold and the result is 10 + 6 = 16. -/
theorem c5_total_chunks_witness :
    specChunks rsC5 < U64 ∧ total_chunks rsC5 = specChunks rsC5 ∧ total_chunks rsC5 = 16 :=
  ⟨by decide, c5_total_chunks_eq_spec rsC5 (by decide) (by decide), by decide⟩

/-- C7: a validly signed heartbeat from peer `PeerP` with its own worker id,
version `1.2.3`, 1000 stored bytes and stored range `[0,99]`, processed from
the empty store, is accepted and leaves the ping counter at `(PeerP, 1.2.3)`
equal to 1, the stored-bytes gauge at 1000, and the stored-chunks gauge
at 100. -/
theorem c7_ping_scenario :
    (handle_msg "Collector" "PeerP" (some (Msg.ping pingC7)) initialStore).2 = none ∧
    (handle_msg "Collector" "PeerP" (some (Msg.ping pingC7)) initialStore).1.ping
      ("PeerP", "1.2.3") = 1 ∧
    (handle_msg "Collector" "PeerP" (some (Msg.ping pingC7)) initialStore).1.stored_bytes
      "PeerP" = 1000 ∧
    (handle_msg "Collector" "PeerP" (some (Msg.ping pingC7)) initialStore).1.stored_chunks
      "PeerP" = 100 := by
  decide

/-- C8 counterexample: the range with `begin = 2`, `end = 0` contributes
`2^32 − 1 = 4294967295` chunks, which is not smaller than the 3 chunks the
well-formed version of the interval would contribute — the code overcounts
here, it does not undercount. -/
theorem c8_counterexample :
    rangeChunks ⟨2, 0⟩ = 4294967295 ∧
    total_chunks [⟨"ds", [⟨2, 0⟩]⟩] = 4294967295 ∧
    specChunks [⟨"ds", [⟨0, 2⟩]⟩] = 3 ∧
    ¬ rangeChunks ⟨2, 0⟩ < 3 := by
  decide

/-- C8 amended: a `u32` range with `end < begin` raises no error and
contributes `(end − begin + 1) mod 2^32`: zero when `end + 1 = begin` (a
silent undercount), and the huge value `2^32 + end + 1 − begin` when
`end + 1 < begin` (a silent overcount). -/
theorem c8_wrap_behavior (r : WorkerRange) (hb : r.begin_ < U32) (he : r.end_ < r.begin_) :
    (r.end_ + 1 = r.begin_ → rangeChunks r = 0) ∧
    (r.end_ + 1 < r.begin_ → rangeChunks r = U32 + r.end_ + 1 - r.begin_) := by
  simp only [rangeChunks, U32] at hb he ⊢
  omega

/-- C8 witness: instantiating the amended statement at `begin = 2`, `end = 0`
gives the overcount `2^32 − 1`. -/
theorem c8_wrap_behavior_witness :
    (2 : Nat) < U32 ∧ (0 : Nat) < 2 ∧ rangeChunks ⟨2, 0⟩ = U32 + 0 + 1 - 2 :=
  ⟨by decide, by decide, (c8_wrap_behavior ⟨2, 0⟩ (by decide) (by decide)).2 (by decide)⟩

/-- C10: an inbound message that decodes to an envelope with an absent payload
or a payload of an unhandled kind, from a known sender, leaves the store
completely unchanged: handling succeeds, no metric is written and the
invalid-message counter is not incremented. -/
theorem c10_unhandled_payload_ignored (dec : List Nat → Except Unit Envelope)
    (lc p : String) (c : List Nat) (s : Store)
    (h : dec c = Except.ok ⟨none⟩ ∨ dec c = Except.ok ⟨some Msg.otherMsg⟩) :
    processMsg dec lc ⟨some p, c⟩ s = s := by
  rcases h with h | h <;> simp [processMsg, h, handle_msg]

/-- C10 witness: a concrete decoder yielding an empty payload from sender `p`
leaves the initial store untouched. -/
theorem c10_unhandled_payload_witness :
    processMsg (fun _ => Except.ok ⟨none⟩) "lc" ⟨some "p", []⟩ initialStore = initialStore :=
  c10_unhandled_payload_ignored (fun _ => Except.ok ⟨none⟩) "lc" "p" [] initialStore
    (Or.inl rfl)

/-- C2 counterexample: a heartbeat whose signature verifies for the sender and
whose worker id equals the sender is still rejected when its version field is
absent, so signature validity plus identity match is not sufficient for
validation to succeed. -/
theorem c2_counterexample :
    pingNoVer.signature_ok "PeerP" = true ∧
    pingNoVer.worker_id = some "PeerP" ∧
    (handle_msg "Collector" "PeerP" (some (Msg.ping pingNoVer)) initialStore).2
      = some MsgError.pingWithoutVersion := by
  decide

/-- C2 amended: a heartbeat from transport-asserted sender `p` is accepted if
and only if its signature verifies for `p`, its self-declared worker id equals
`p`, and its version field is present; on any failure the store receives no
write at all. -/
theorem c2_ping_validation (lc p : String) (ping : Ping) (s : Store) :
    ((handle_msg lc p (some (Msg.ping ping)) s).2 = none ↔
      (ping.signature_ok p = true ∧ ping.worker_id = some p ∧ ping.version.isSome = true)) ∧
    (∀ e, (handle_msg lc p (some (Msg.ping ping)) s).2 = some e →
      (handle_msg lc p (some (Msg.ping ping)) s).1 = s) := by
  unfold handle_msg
  cases hsig : ping.signature_ok p with
  | false => simp [hsig]
  | true =>
    by_cases hw : ping.worker_id = some p
    · cases hv : ping.version with
      | none => simp [hsig, hw, hv]
      | some v => simp [hsig, hw, hv]
    · simp [hsig, hw]

/-- C2 witness: the scenario heartbeat satisfies all three conditions, so the
amended criterion accepts it. -/
theorem c2_ping_validation_witness :
    (handle_msg "Collector" "PeerP" (some (Msg.ping pingC7)) initialStore).2 = none :=
  (c2_ping_validation "Collector" "PeerP" pingC7 initialStore).1.mpr (by decide)

theorem applyLogsCollected_other_families (l : List (String × Nat)) (s : Store) :
    (l.foldl (fun st pr => report_logs_collected pr.1 ((pr.2 + 1) % U64) st) s).invalid_messages
        = s.invalid_messages ∧
    (l.foldl (fun st pr => report_logs_collected pr.1 ((pr.2 + 1) % U64) st) s).ping = s.ping ∧
    (l.foldl (fun st pr => report_logs_collected pr.1 ((pr.2 + 1) % U64) st) s).stored_bytes
        = s.stored_bytes ∧
    (l.foldl (fun st pr => report_logs_collected pr.1 ((pr.2 + 1) % U64) st) s).stored_chunks
        = s.stored_chunks ∧
    (l.foldl (fun st pr => report_logs_collected pr.1 ((pr.2 + 1) % U64) st) s).queries_ok
        = s.queries_ok := by
  induction l generalizing s with
  | nil => exact ⟨rfl, rfl, rfl, rfl, rfl⟩
  | cons kv t ih =>
    simp only [List.foldl_cons]
    exact ih (report_logs_collected kv.1 ((kv.2 + 1) % U64) s)

/-- C3 counterexample: a `LogsCollected` message from the configured collector
whose sequence-number map is empty mutates nothing, so "the store is mutated
if and only if the sender is the collector" fails in the if direction. -/
theorem c3_counterexample :
    ¬ (((handle_msg "Collector" "Collector"
        (some (Msg.logsCollected ⟨[]⟩)) initialStore).1 ≠ initialStore) ↔
      ("Collector" : String) = "Collector") := by
  have h1 : (handle_msg "Collector" "Collector"
      (some (Msg.logsCollected ⟨[]⟩)) initialStore).1 = initialStore := rfl
  simp [h1]

/-- C3 amended: a `LogsCollected` message can mutate the store only when its
sender equals the configured collector — any other sender is fully rejected
with the store unchanged; from the collector, handling succeeds and performs
exactly the per-entry last-collected-log gauge writes, touching no other
metric family. -/
theorem c3_logs_collected_origin (lc p : String) (c : LogsCollected) (s : Store) :
    (p ≠ lc → handle_msg lc p (some (Msg.logsCollected c)) s
        = (s, some MsgError.wrongLogsOrigin)) ∧
    (p = lc → handle_msg lc p (some (Msg.logsCollected c)) s
        = (applyLogsCollected c s, none)) ∧
    (applyLogsCollected c s).invalid_messages = s.invalid_messages ∧
    (applyLogsCollected c s).ping = s.ping ∧
    (applyLogsCollected c s).stored_bytes = s.stored_bytes ∧
    (applyLogsCollected c s).stored_chunks = s.stored_chunks ∧
    (applyLogsCollected c s).queries_ok = s.queries_ok := by
  refine ⟨fun hne => by simp [handle_msg, hne], fun heq => by simp [handle_msg, heq], ?_⟩
  exact applyLogsCollected_other_families c.sequence_numbers s

/-- C3 witness: a message from a non-collector sender is rejected with the
initial store unchanged. -/
theorem c3_logs_collected_origin_witness :
    handle_msg "Collector" "Imposter"
        (some (Msg.logsCollected ⟨[("w1", 1)]⟩)) initialStore
      = (initialStore, some MsgError.wrongLogsOrigin) :=
  (c3_logs_collected_origin "Collector" "Imposter" ⟨[("w1", 1)]⟩ initialStore).1
    (by decide)

/-- C4: one scheduler-poller invocation either fails with a fetch error or a
parse error, leaving the store with zero writes, or succeeds after the entire
snapshot has been fetched and parsed, writing the gauges of every worker
status; there is no partial write. -/
theorem c4_scheduler_atomic (fetched : Except Unit (List Nat))
    (parse : List Nat → Except Unit (List WorkerStatus)) (s : Store) :
    (∀ e, (collect_scheduler_metrics fetched parse s).2 = some e →
      (collect_scheduler_metrics fetched parse s).1 = s) ∧
    (fetched = Except.error () →
      collect_scheduler_metrics fetched parse s = (s, some SchedError.fetchError)) ∧
    (∀ body, fetched = Except.ok body → parse body = Except.error () →
      collect_scheduler_metrics fetched parse s = (s, some SchedError.parseError)) ∧
    (∀ body statuses, fetched = Except.ok body → parse body = Except.ok statuses →
      collect_scheduler_metrics fetched parse s
        = (statuses.foldl (fun st w => report_scheduler_status w st) s, none)) := by
  refine ⟨?_, ?_, ?_, ?_⟩
  · intro e he
    cases fetched with
    | error u => rfl
    | ok body =>
      cases hp : parse body with
      | error u => simp [collect_scheduler_metrics, request_pings_status, hp]
      | ok statuses =>
        exfalso
        simp [collect_scheduler_metrics, request_pings_status, hp] at he
  · intro hf
    subst hf
    rfl
  · intro body hf hp
    subst hf
    simp [collect_scheduler_metrics, request_pings_status, hp]
  · intro body statuses hf hp
    subst hf
    simp [collect_scheduler_metrics, request_pings_status, hp]

/-- C4 witness: a snapshot whose body fails to parse yields a parse error and
leaves the initial store untouched. -/
theorem c4_scheduler_atomic_witness :
    collect_scheduler_metrics (Except.ok []) (fun _ => Except.error ()) initialStore
      = (initialStore, some SchedError.parseError) :=
  (c4_scheduler_atomic (Except.ok []) (fun _ => Except.error ()) initialStore).2.2.1
    [] rfl rfl

/-- C6 counterexample: an undecodable message that does carry a sender
identity increments the unlabeled invalid-message counter, not the counter
labeled with the known sender. -/
theorem c6_counterexample :
    (processMsg (fun _ => Except.error ()) "Collector" ⟨some "p", []⟩
        initialStore).invalid_messages (some "p") = 0 ∧
    (processMsg (fun _ => Except.error ()) "Collector" ⟨some "p", []⟩
        initialStore).invalid_messages none = 1 := by
  decide

/-- C6 amended: decode failures and missing-sender failures increment the
unlabeled invalid-message counter — even when the transport attached a sender
id to the undecodable message; handler failures after a successful decode
increment the counter labeled with the sender, applied to the store as
already updated by the handler; and the loop never fails on a bad message —
it continues with the remaining messages. -/
theorem c6_invalid_message_accounting (dec : List Nat → Except Unit Envelope)
    (lc : String) (raw : RawMessage) (s : Store) (m : RawMessage)
    (ms : List RawMessage) :
    (dec raw.content = Except.error () →
      processMsg dec lc raw s = invalid_message none s) ∧
    (∀ env, dec raw.content = Except.ok env → raw.peer_id = none →
      processMsg dec lc raw s = invalid_message none s) ∧
    (∀ env p s' e, dec raw.content = Except.ok env → raw.peer_id = some p →
      handle_msg lc p env.msg s = (s', some e) →
      processMsg dec lc raw s = invalid_message (some p) s') ∧
    (run dec lc (m :: ms) s = run dec lc ms (processMsg dec lc m s)) := by
  refine ⟨?_, ?_, ?_, rfl⟩
  · intro h
    simp [processMsg, h]
  · intro env h hp
    simp [processMsg, h, hp]
  · intro env p s' e h hp hh
    simp [processMsg, h, hp, hh]

/-- C6 witness: the decode-failure conjunct applied to a concrete undecodable
message with a known sender. -/
theorem c6_invalid_message_accounting_witness :
    processMsg (fun _ => Except.error ()) "Collector" ⟨some "p", []⟩ initialStore
      = invalid_message none initialStore :=
  (c6_invalid_message_accounting (fun _ => Except.error ()) "Collector"
    ⟨some "p", []⟩ initialStore ⟨some "p", []⟩ []).1 rfl

theorem handleQueries_cons_valid (p : String) (q : QueryExecuted)
    (rest : List QueryExecuted) (s : Store) (h : queryValid p q = true) :
    handleQueries p (q :: rest) s = handleQueries p rest (applyQuery p q s) := by
  simp only [queryValid, Bool.and_eq_true, beq_iff_eq, Option.isSome_iff_exists] at h
  obtain ⟨⟨⟨hsig, hw⟩, r, hr⟩, n, hn⟩ := h
  simp [handleQueries, applyQuery, hsig, hw, hr, hn]

theorem handleQueries_cons_invalid (p : String) (q : QueryExecuted)
    (rest : List QueryExecuted) (s : Store) (h : queryValid p q = false) :
    ∃ e, handleQueries p (q :: rest) s = (s, some e) := by
  unfold handleQueries
  cases hsig : q.signature_ok p with
  | false => exact ⟨MsgError.wrongQuerySignature, by simp [hsig]⟩
  | true =>
    by_cases hw : q.worker_id = p
    · cases hr : q.result with
      | none => exact ⟨MsgError.queryWithoutResult, by simp [hsig, hw, hr]⟩
      | some r =>
        cases hn : q.seq_no with
        | none => exact ⟨MsgError.queryWithoutSeqNo, by simp [hsig, hw, hr, hn]⟩
        | some n =>
          exfalso
          simp [queryValid, hsig, hw, hr, hn] at h
    · exact ⟨MsgError.wrongQueryWorkerId, by simp [hsig, hw]⟩

/-- C1 counterexample: a two-record batch with one invalid record
(N = 2, M = 1) does not yield N − M = 1 store update and does depend on
record order: with the invalid record first, zero query counters are updated;
with the valid record first, one is — while the invalid-message counter is
incremented once in both cases. -/
theorem c1_counterexample :
    (processMsg decC1 "Collector" ⟨some "p", [0]⟩ initialStore).queries_ok "p" = 0 ∧
    (processMsg decC1 "Collector" ⟨some "p", [0]⟩ initialStore).invalid_messages
      (some "p") = 1 ∧
    (processMsg decC1 "Collector" ⟨some "p", [1]⟩ initialStore).queries_ok "p" = 1 ∧
    (processMsg decC1 "Collector" ⟨some "p", [1]⟩ initialStore).invalid_messages
      (some "p") = 1 := by
  decide

/-- C1 amended: the records of a `QueryExecutedBatch` are processed in order
and validation stops at the first invalid record: a batch whose records are
all valid performs one query-metric update per record with no error, while a
batch splitting as valid records `front`, a first invalid record, and a
remainder performs exactly the updates of `front` and then fails (causing a
single invalid-message increment and discarding the remainder), so the
outcome depends on record order. -/
theorem c1_batch_stops_at_first_invalid (p : String) (qs : List QueryExecuted)
    (s : Store) :
    ((∀ q ∈ qs, queryValid p q = true) →
      handleQueries p qs s = (qs.foldl (fun st q => applyQuery p q st) s, none)) ∧
    (∀ front bad rest, qs = front ++ bad :: rest →
      (∀ q ∈ front, queryValid p q = true) → queryValid p bad = false →
      ∃ e, handleQueries p qs s
        = (front.foldl (fun st q => applyQuery p q st) s, some e)) := by
  constructor
  · intro hall
    induction qs generalizing s with
    | nil => rfl
    | cons q t ih =>
      rw [handleQueries_cons_valid p q t s (hall q (List.mem_cons_self q t)),
        List.foldl_cons]
      exact ih (applyQuery p q s) (fun x hx => hall x (List.mem_cons_of_mem q hx))
  · intro front bad rest heq hfront hbad
    subst heq
    induction front generalizing s with
    | nil =>
      simp only [List.nil_append, List.foldl_nil]
      exact handleQueries_cons_invalid p bad rest s hbad
    | cons f ft ih =>
      rw [List.cons_append,
        handleQueries_cons_valid p f _ s (hfront f (List.mem_cons_self f ft)),
        List.foldl_cons]
      exact ih (applyQuery p f s) (fun x hx => hfront x (List.mem_cons_of_mem f hx))

/-- C1 witness: the amended statement applied to the concrete batch with the
valid record first — exactly one update is performed before the abort. -/
theorem c1_batch_stops_witness :
    ∃ e, handleQueries "p" [qGoodC1, qBadC1] initialStore
      = ([qGoodC1].foldl (fun st q => applyQuery "p" q st) initialStore, some e) :=
  (c1_batch_stops_at_first_invalid "p" [qGoodC1, qBadC1] initialStore).2
    [qGoodC1] qBadC1 [] rfl
    (by
      intro q hq
      rw [List.mem_singleton] at hq
      subst hq
      decide)
    (by decide)

theorem logsFold_peer_not_mem (l : List (String × Nat)) (s : Store) (peer : String)
    (h : peer ∉ l.map Prod.fst) :
    (l.foldl (fun st pr => report_logs_collected pr.1 ((pr.2 + 1) % U64) st)
        s).last_collected_log peer
      = s.last_collected_log peer := by
  induction l generalizing s with
  | nil => rfl
  | cons kv t ih =>
    simp only [List.map_cons, List.mem_cons, not_or] at h
    rw [List.foldl_cons, ih _ h.2]
    simp [report_logs_collected, h.1]

theorem logsFold_peer_mem (l : List (String × Nat)) (s : Store) (peer : String)
    (seq : Nat) (hmem : (peer, seq) ∈ l) (hnd : (l.map Prod.fst).Nodup) :
    (l.foldl (fun st pr => report_logs_collected pr.1 ((pr.2 + 1) % U64) st)
        s).last_collected_log peer
      = u64_as_i64 ((seq + 1) % U64) := by
  induction l generalizing s with
  | nil => cases hmem
  | cons kv t ih =>
    simp only [List.map_cons, List.nodup_cons] at hnd
    rcases List.mem_cons.mp hmem with heq | hmemt
    · rw [List.foldl_cons]
      have hnm : peer ∉ t.map Prod.fst := by
        have := hnd.1
        rw [← heq] at this
        exact this
      rw [logsFold_peer_not_mem t _ peer hnm, ← heq]
      simp [report_logs_collected]
    · rw [List.foldl_cons]
      exact ih _ hmemt hnd.2

/-- C9: an accepted `LogsCollected` message sets the last-collected-log gauge
of each listed peer to its sequence number plus one, not to the sequence
number itself (stated for maps with distinct peer keys, as a hash map
delivers, and sequence numbers below the `i64` gauge limit). -/
theorem c9_gauge_is_seq_plus_one (lc : String) (c : LogsCollected) (s : Store)
    (peer : String) (seq : Nat) (hmem : (peer, seq) ∈ c.sequence_numbers)
    (hnd : (c.sequence_numbers.map Prod.fst).Nodup) (hof : seq + 1 < 2 ^ 63) :
    (handle_msg lc lc (some (Msg.logsCollected c)) s).1.last_collected_log peer
      = (seq : Int) + 1 ∧ ((seq : Int) + 1 ≠ (seq : Int)) := by
  constructor
  · have hmsg : (handle_msg lc lc (some (Msg.logsCollected c)) s).1
        = applyLogsCollected c s := by
      simp [handle_msg]
    rw [hmsg]
    unfold applyLogsCollected
    rw [logsFold_peer_mem c.sequence_numbers s peer seq hmem hnd]
    rw [Nat.mod_eq_of_lt (lt_trans hof (by decide)), u64_as_i64_small _ hof]
    push_cast
    ring
  · omega

/-- C9 witness: a concrete accepted message carrying `(w1, 5)` leaves the
gauge for `w1` at 6. -/
theorem c9_gauge_witness :
    (handle_msg "Collector" "Collector"
        (some (Msg.logsCollected ⟨[("w1", 5)]⟩)) initialStore).1.last_collected_log "w1"
      = (5 : Int) + 1 ∧ ((5 : Int) + 1 ≠ (5 : Int)) :=
  c9_gauge_is_seq_plus_one "Collector" ⟨[("w1", 5)]⟩ initialStore "w1" 5
    (by decide) (by decide) (by decide)
